import Mathlib

/-!
Verification of the Teddy-Talk conversational core against its specification.

The development shallowly embeds the TypeScript sources:
  * `src/services/geminiService.ts` — the `GeminiError` classifier,
    `withErrorHandling`, the `executeChat` tool-calling loop,
    `generateTherapyTask`, `assessPronunciation`, `analyzeBaseline`;
  * `src/services/audioUtils.ts` — `pcmToAudioBuffer`,
    `concatenateAudioBuffers`, `audioBufferToWav`.

Remote model calls are nondeterministic collaborators; each embedded
operation takes the remote outcome (a thrown JS error or a returned
payload) as an explicit parameter and computes exactly what the source
does with it.  JS numbers that only ever hold 16-bit PCM data are
modelled as rationals (all values arising here are exactly representable
in IEEE binary32/binary64, so rational arithmetic is exact).
-/

namespace TeddyTalk

/-! ## JS primitives used by the source -/

/-- One step of JS `String.prototype.startsWith` on char lists. -/
def listStartsWith : List Char → List Char → Bool
  | _, [] => true
  | [], _ :: _ => false
  | a :: as, b :: bs => a = b && listStartsWith as bs

/-- JS `String.prototype.includes`: `sub` occurs contiguously in `l`. -/
def listHasSub : List Char → List Char → Bool
  | [], sub => sub.isEmpty
  | a :: t, sub => listStartsWith (a :: t) sub || listHasSub t sub

/-- JS `message.includes(sub)` on Lean strings. -/
def jsIncludes (s sub : String) : Bool := listHasSub s.data sub.data

/-- JS `String.prototype.trim`: strip leading and trailing whitespace. -/
def jsTrim (l : List Char) : List Char :=
  ((l.dropWhile Char.isWhitespace).reverse.dropWhile Char.isWhitespace).reverse

/-- JS truthiness of an optional string (`undefined` and `""` are falsy). -/
def truthyStr : Option String → Bool
  | none => false
  | some s => s ≠ ""

/-- JS `a || b` for optional strings (the source's `message || fallback`). -/
def jsOrStr (a : Option String) (b : String) : String :=
  match a with
  | some s => if s = "" then b else s
  | none => b

/-- JS truthiness of an optional HTTP status (`undefined` and `0` are falsy). -/
def falsyStatus : Option Nat → Bool
  | none => true
  | some v => v = 0

/-- JS `a || b` for optional numbers (the source's `error.status || error.response?.status`). -/
def jsOrNat (a b : Option Nat) : Option Nat :=
  if falsyStatus a then b else a

/-! ## `GeminiError` and `withErrorHandling` (geminiService.ts lines 6-52) -/

/-- The data carried by a constructed `GeminiError`. -/
structure GeminiErrorRec where
  message : String
  retryDelay : Nat
  isQuotaError : Bool
deriving DecidableEq, Repr

/-- A JS error as observed by `withErrorHandling`'s catch block: an optional
`status` field, an optional `response.status`, and an optional message.
(`responseStatus = none` covers both a missing `response` and a `response`
without a `status`.) -/
structure JsError where
  status : Option Nat
  responseStatus : Option Nat
  message : Option String
deriving DecidableEq, Repr

/-- The `GeminiError` constructor body (lines 10-28): branch on the status
heuristic and pick message, retry delay and quota flag. -/
def mkGeminiError (message : Option String) (status : Option Nat) : GeminiErrorRec :=
  if status = some 429 then
    ⟨"I\x27m thinking too fast! I need a short nap.", 60000, true⟩
  else if status = some 503 then
    ⟨"My brain is a bit foggy. Give me a moment.", 10000, false⟩
  else
    ⟨jsOrStr message "Something went wrong. Let\x27s try again.", 5000, false⟩

/-- Lines 39-48: extract `error.status || error.response?.status`, then
fall back to scanning the message for 429/quota and 503/overloaded
signatures only when no status was found. -/
def classifyStatus (e : JsError) : Option Nat :=
  let s := jsOrNat e.status e.responseStatus
  if falsyStatus s ∧ truthyStr e.message ∧
      (jsIncludes (jsOrStr e.message "") "429" ∨ jsIncludes (jsOrStr e.message "") "quota") then
    some 429
  else if falsyStatus s ∧ truthyStr e.message ∧
      (jsIncludes (jsOrStr e.message "") "503" ∨ jsIncludes (jsOrStr e.message "") "overloaded") then
    some 503
  else s

/-- The `GeminiError` thrown by `withErrorHandling` for a caught JS error. -/
def withErrorHandlingErr (e : JsError) : GeminiErrorRec :=
  mkGeminiError e.message (classifyStatus e)

/-- `withErrorHandling` (lines 32-52): pass successes through, reclassify
failures as `GeminiError`. -/
def withErrorHandling {α : Type} (op : Except JsError α) : Except GeminiErrorRec α :=
  match op with
  | .ok v => .ok v
  | .error e => .error (withErrorHandlingErr e)

/-! ## A model of the platform's `JSON.parse`

`analyzeBaseline` and `generateTherapyTask` feed the remote model's text
through `JSON.parse`.  The parser below implements the JSON grammar
(ECMA-404) over char lists, with fuel for termination; `\u` escapes map
through `Char.ofNat` and numeric values are kept as exact rationals. -/

/-- A parsed JSON value. -/
inductive Json where
  | null
  | bool (b : Bool)
  | num (q : ℚ)
  | str (s : String)
  | arr (xs : List Json)
  | obj (fields : List (String × Json))

/-- The `{` character (written via its code point). -/
def braceL : Char := Char.ofNat 123

/-- The `}` character. -/
def braceR : Char := Char.ofNat 125

/-- The `"` character. -/
def quoteCh : Char := Char.ofNat 34

/-- The `\` character. -/
def backslashCh : Char := Char.ofNat 92

/-- JSON insignificant whitespace (space, tab, line feed, carriage return). -/
def skipWs (l : List Char) : List Char :=
  l.dropWhile fun c => c = ' ' ∨ c = '\t' ∨ c = '\n' ∨ c = '\r'

/-- Value of a hex digit, if the char is one. -/
def hexVal (c : Char) : Option Nat :=
  if '0' ≤ c ∧ c ≤ '9' then some (c.toNat - 48)
  else if 'a' ≤ c ∧ c ≤ 'f' then some (c.toNat - 87)
  else if 'A' ≤ c ∧ c ≤ 'F' then some (c.toNat - 70)
  else none

/-- Parse the body of a JSON string (the opening quote already consumed). -/
def parseStrBody : Nat → List Char → Option (List Char × List Char)
  | 0, _ => none
  | _ + 1, [] => none
  | fuel + 1, c :: rest =>
    if c = quoteCh then some ([], rest)
    else if c = backslashCh then
      match rest with
      | [] => none
      | e :: rest2 =>
        let esc : Option (Char × List Char) :=
          if e = quoteCh then some (quoteCh, rest2)
          else if e = backslashCh then some (backslashCh, rest2)
          else if e = '/' then some ('/', rest2)
          else if e = 'b' then some (Char.ofNat 8, rest2)
          else if e = 'f' then some (Char.ofNat 12, rest2)
          else if e = 'n' then some ('\n', rest2)
          else if e = 'r' then some ('\r', rest2)
          else if e = 't' then some ('\t', rest2)
          else if e = 'u' then
            match rest2 with
            | h1 :: h2 :: h3 :: h4 :: rest3 =>
              match hexVal h1, hexVal h2, hexVal h3, hexVal h4 with
              | some v1, some v2, some v3, some v4 =>
                some (Char.ofNat (((v1 * 16 + v2) * 16 + v3) * 16 + v4), rest3)
              | _, _, _, _ => none
            | _ => none
          else none
        match esc with
        | some (ch, rest') =>
          match parseStrBody fuel rest' with
          | some (cs, rem) => some (ch :: cs, rem)
          | none => none
        | none => none
    else if c.toNat < 32 then none
    else
      match parseStrBody fuel rest with
      | some (cs, rem) => some (c :: cs, rem)
      | none => none

/-- Numeric value of a digit run. -/
def digitsToNat (l : List Char) : Nat :=
  l.foldl (fun a c => 10 * a + (c.toNat - 48)) 0

/-- Parse a JSON number (grammar `-? int frac? exp?`). -/
def parseNum (l : List Char) : Option (ℚ × List Char) :=
  let (neg, l1) := match l with
    | '-' :: t => (true, t)
    | _ => (false, l)
  let ds := l1.takeWhile Char.isDigit
  let l2 := l1.dropWhile Char.isDigit
  if ds = [] then none
  else if ds.length > 1 ∧ ds.headD '0' = '0' then none
  else
    let (fds, l3) : List Char × List Char := match l2 with
      | '.' :: t => (t.takeWhile Char.isDigit, t.dropWhile Char.isDigit)
      | _ => ([], l2)
    if (match l2 with | '.' :: _ => fds.isEmpty | _ => false : Bool) then none
    else
      let hasExp : Bool := match l3 with
        | 'e' :: _ => true
        | 'E' :: _ => true
        | _ => false
      if hasExp then
        let t := l3.tail
        let (esign, t1) : Int × List Char := match t with
          | '+' :: u => (1, u)
          | '-' :: u => (-1, u)
          | _ => (1, t)
        let eds := t1.takeWhile Char.isDigit
        let l4 := t1.dropWhile Char.isDigit
        if eds = [] then none
        else
          let base : ℚ := (digitsToNat ds : ℚ) + (digitsToNat fds : ℚ) / (10 : ℚ) ^ fds.length
          let v : ℚ := base * (10 : ℚ) ^ (esign * (digitsToNat eds : Int))
          some (if neg then -v else v, l4)
      else
        let base : ℚ := (digitsToNat ds : ℚ) + (digitsToNat fds : ℚ) / (10 : ℚ) ^ fds.length
        some (if neg then -base else base, l3)

mutual

/-- Parse one JSON value. -/
def parseValue : Nat → List Char → Option (Json × List Char)
  | 0, _ => none
  | fuel + 1, l =>
    match skipWs l with
    | [] => none
    | c :: rest =>
      if c = braceL then
        match skipWs rest with
        | d :: rest2 =>
          if d = braceR then some (.obj [], rest2)
          else
            match parseMembers fuel (d :: rest2) with
            | some (fields, rem) => some (.obj fields, rem)
            | none => none
        | [] => none
      else if c = '[' then
        match skipWs rest with
        | d :: rest2 =>
          if d = ']' then some (.arr [], rest2)
          else
            match parseElems fuel (d :: rest2) with
            | some (xs, rem) => some (.arr xs, rem)
            | none => none
        | [] => none
      else if c = quoteCh then
        match parseStrBody (rest.length + 1) rest with
        | some (cs, rem) => some (.str ⟨cs⟩, rem)
        | none => none
      else if c = 't' then
        if rest.take 3 = ['r', 'u', 'e'] then some (.bool true, rest.drop 3) else none
      else if c = 'f' then
        if rest.take 4 = ['a', 'l', 's', 'e'] then some (.bool false, rest.drop 4) else none
      else if c = 'n' then
        if rest.take 3 = ['u', 'l', 'l'] then some (.null, rest.drop 3) else none
      else
        match parseNum (c :: rest) with
        | some (q, rem) => some (.num q, rem)
        | none => none

/-- Parse one or more `"key": value` members, comma separated. -/
def parseMembers : Nat → List Char → Option (List (String × Json) × List Char)
  | 0, _ => none
  | fuel + 1, l =>
    match skipWs l with
    | c :: rest =>
      if c = quoteCh then
        match parseStrBody (rest.length + 1) rest with
        | some (key, rem) =>
          match skipWs rem with
          | ':' :: rem2 =>
            match parseValue fuel rem2 with
            | some (v, rem3) =>
              match skipWs rem3 with
              | ',' :: rem4 =>
                match parseMembers fuel rem4 with
                | some (fields, rem5) => some ((⟨key⟩, v) :: fields, rem5)
                | none => none
              | d :: rem4 =>
                if d = braceR then some ([(⟨key⟩, v)], rem4) else none
              | [] => none
            | none => none
          | _ => none
        | none => none
      else none
    | [] => none

/-- Parse one or more array elements, comma separated. -/
def parseElems : Nat → List Char → Option (List Json × List Char)
  | 0, _ => none
  | fuel + 1, l =>
    match parseValue fuel l with
    | some (v, rem) =>
      match skipWs rem with
      | ',' :: rem2 =>
        match parseElems fuel rem2 with
        | some (xs, rem3) => some (v :: xs, rem3)
        | none => none
      | ']' :: rem2 => some ([v], rem2)
      | _ => none
    | none => none

end

/-- `JSON.parse`: parse a complete value, allowing trailing whitespace only. -/
def jsonParse (s : String) : Option Json :=
  match parseValue (s.length + 1) s.data with
  | some (v, rest) => if skipWs rest = [] then some v else none
  | none => none

/-- JS truthiness of a JSON value (`null`, `false`, `0`, `""` are falsy). -/
def jsTruthy : Json → Bool
  | .null => false
  | .bool b => b
  | .num q => q ≠ 0
  | .str s => s ≠ ""
  | .arr _ => true
  | .obj _ => true

/-- JS truthiness of an optional JSON value (`undefined` is falsy). -/
def jsTruthyOpt : Option Json → Bool
  | none => false
  | some v => jsTruthy v

/-- JS member access `v.k`: throws a `TypeError` on `null`, yields the
member (last duplicate wins, as `JSON.parse` keeps the last) on objects,
and `undefined` on other values. -/
def jMember (v : Json) (k : String) : Except JsError (Option Json) :=
  match v with
  | .null => .error ⟨none, none, some ("Cannot read properties of null (reading \x27" ++ k ++ "\x27)")⟩
  | .obj fields => .ok ((fields.reverse.find? (fun f => f.1 = k)).map (fun f => f.2))
  | _ => .ok none

/-! ## `analyzeBaseline` (geminiService.ts lines 153-212)

The method builds a prompt, performs one remote call and returns
`JSON.parse(result.text || '{}')`, all inside `withErrorHandling`.  The
remote call's outcome is the parameter: `.error e` models the call
throwing `e`, `.ok t` models a response whose `text` getter yields `t`
(`none` models an absent text payload).  A `JSON.parse` failure throws a
`SyntaxError`; its message is engine dependent and carries no HTTP
status, modelled here by a fixed status-free message. -/

/-- The `SyntaxError` thrown by `JSON.parse` on invalid input. -/
def jsonSyntaxError : JsError :=
  ⟨none, none, some "Unexpected token in JSON"⟩

/-- `JSON.parse(text || '\x7b\x7d')` as an `Except` computation. -/
def parseJsonOrEmpty (t : Option String) : Except JsError Json :=
  match jsonParse (jsOrStr t "\x7b\x7d") with
  | some v => .ok v
  | none => .error jsonSyntaxError

/-- `analyzeBaseline`, applied to the remote call's outcome. -/
def analyzeBaseline (remote : Except JsError (Option String)) : Except GeminiErrorRec Json :=
  withErrorHandling (remote.bind parseJsonOrEmpty)

/-! ## `generateTherapyTask` (geminiService.ts lines 349-407)

Lines 351-387 only assemble the prompt (phoneme statistics, exclusions),
which the remote collaborator consumes; the observable behaviour modelled
here is what the method does with the remote outcome (lines 389-405):
parse `result.text || '{}'`, throw `Error("Invalid format")` when
`data.word` is falsy, and otherwise build the new task.  `Date.now()` is
the parameter `now`. -/

/-- The task record built by `generateTherapyTask` (status, attempts,
timestamps and the word/phoneme taken from the parsed JSON). -/
structure SpeechTaskRec where
  id : String
  word : Json
  targetPhoneme : Json
  status : String
  attempts : Nat
  lastPracticed : Nat
  history : List String

/-- JS `data.word.charAt(0).toUpperCase()`: a `TypeError` unless the value
is a string; the first UTF-16 unit of a nonempty string, upper-cased. -/
def charAt0Upper : Json → Except JsError Json
  | .str s =>
    .ok (.str (match s.data with
      | [] => ""
      | c :: _ => String.mk [c.toUpper]))
  | _ => .error ⟨none, none, some "charAt is not a function"⟩

/-- Lines 394-405: parse `result.text || '\x7b\x7d'`, throw
`Error("Invalid format")` on a falsy `data.word`, and build the task.
JS exception propagation is written as explicit `Except` plumbing. -/
def genTaskFromWord (data : Json) (word : Option Json) (now : Nat) :
    Except JsError SpeechTaskRec :=
  if ¬ jsTruthyOpt word then .error ⟨none, none, some "Invalid format"⟩
  else
    match jMember data "targetPhoneme" with
    | .error e => .error e
    | .ok tp =>
      let w := word.getD .null
      match (match tp with
        | some v => if jsTruthy v then .ok v else charAt0Upper w
        | none => charAt0Upper w : Except JsError Json) with
      | .error e => .error e
      | .ok phoneme =>
        .ok { id := toString now, word := w, targetPhoneme := phoneme,
              status := "new", attempts := 0, lastPracticed := now, history := [] }

/-- Continuation of `genTaskFromWord` after the parse step. -/
def genTaskFromJson (data : Json) (now : Nat) : Except JsError SpeechTaskRec :=
  match jMember data "word" with
  | .error e => .error e
  | .ok word => genTaskFromWord data word now

/-- The parse step in front of `genTaskFromJson`. -/
def genTaskBody (t : Option String) (now : Nat) : Except JsError SpeechTaskRec :=
  match parseJsonOrEmpty t with
  | .error e => .error e
  | .ok data => genTaskFromJson data now

/-- `generateTherapyTask`, applied to the remote outcome and `Date.now()`. -/
def generateTherapyTask (remote : Except JsError (Option String)) (now : Nat) :
    Except GeminiErrorRec SpeechTaskRec :=
  withErrorHandling (
    match remote with
    | .error e => .error e
    | .ok t => genTaskBody t now)

/-! ## `executeChat` (geminiService.ts lines 216-320)

The loop is driven by the remote model's scripted responses: `script k`
is the content of the candidate returned by the `k`-th `generateContent`
call (`none` models a response with no content or no `parts` field, the
`!responseContent || !responseContent.parts` test on line 257).  Tool
dispatch is recorded as a list of `ToolEffect`s, the model of the
caller-supplied `onMemoryUpdate` / `onCharacterUpdate` / `onMoodUpdate`
(and, for `assessPronunciation`, `onTaskUpdate`) callback invocations. -/

/-- A `functionCall` part payload: tool name, parsed arguments, call id. -/
structure FunctionCallRec where
  name : String
  args : List (String × Json)
  id : Option String

/-- A `functionResponse` part payload (name, response object, call id). -/
structure FunctionResponseRec where
  name : String
  response : Json
  id : Option String

/-- A response `Part`: optional text, optional function call, optional
inline binary data (only its presence matters), optional function
response (only ever present on parts the loop itself builds). -/
structure PartRec where
  text : Option String := none
  functionCall : Option FunctionCallRec := none
  inlineData : Bool := false
  functionResponse : Option FunctionResponseRec := none

/-- One entry of the `contents` list sent to the model. -/
structure ContentRec where
  role : String
  parts : List PartRec

/-- An entry of the caller's chat history (`ChatMessage` in types.ts). -/
structure ChatMessageRec where
  role : String
  text : String

/-- JS `args.k` on a function call's arguments object. -/
def argGet (c : FunctionCallRec) (k : String) : Option Json :=
  (c.args.reverse.find? (fun f => f.1 = k)).map (fun f => f.2)

/-- A recorded invocation of a caller-supplied callback. -/
inductive ToolEffect where
  | memoryUpdate (key value action : Option Json)
  | characterUpdate (newName : Option Json)
  | moodUpdate (mood : Option Json)
  | taskUpdate (taskId : Option Json) (status urgency : Option Json)
      (report : Option (Option Json × Option Json × Option Json))

/-- Rendering of a JS value inside a template literal (string values embed
verbatim; other shapes are approximated, none of them is inspected by any
claim). -/
def jsTemplate : Option Json → String
  | none => "undefined"
  | some .null => "null"
  | some (.bool b) => toString b
  | some (.num q) => toString q
  | some (.str s) => s
  | some (.arr _) => ""
  | some (.obj _) => "[object Object]"

/-- Lines 284-298: dispatch one tool call of the chat loop to its callback
and produce the `toolResult` object; unknown names invoke no callback and
acknowledge with `\x7bresult: "Function executed."\x7d`. -/
def dispatchChatCall (c : FunctionCallRec) : List ToolEffect × Json :=
  if c.name = "updateMemory" then
    ([.memoryUpdate (argGet c "key") (argGet c "value") (argGet c "action")],
     .obj [("result", .str "Memory updated.")])
  else if c.name = "updateCharacterName" then
    ([.characterUpdate (argGet c "newName")],
     .obj [("result", .str ("Name updated to " ++ jsTemplate (argGet c "newName") ++ "."))])
  else if c.name = "setMood" then
    ([.moodUpdate (argGet c "mood")],
     .obj [("result", .str ("Mood set to " ++ jsTemplate (argGet c "mood") ++ "."))])
  else
    ([], .obj [("result", .str "Function executed.")])

/-- Line 263-266: a part survives the response filter when its text is
nonempty after trimming, or (text absent) it carries a function call or
inline data. -/
def validPart (p : PartRec) : Bool :=
  match p.text with
  | some t => (jsTrim t.data).length > 0
  | none => p.functionCall.isSome || p.inlineData

/-- Line 275: the function calls of a filtered response. -/
def partFunctionCalls (parts : List PartRec) : List FunctionCallRec :=
  (parts.filter (fun p => p.functionCall.isSome)).filterMap (fun p => p.functionCall)

/-- Lines 300-306: the `functionResponse` part answering one tool call. -/
def toolResponsePart (c : FunctionCallRec) : PartRec :=
  { functionResponse := some ⟨c.name, (dispatchChatCall c).2, c.id⟩ }

/-- The combined tool-result turn for a response's function calls. -/
def toolResponseParts (fcalls : List FunctionCallRec) : List PartRec :=
  fcalls.map toolResponsePart

/-- The callback invocations produced by dispatching a response's calls. -/
def dispatchAllEffects (fcalls : List FunctionCallRec) : List ToolEffect :=
  (fcalls.map (fun c => (dispatchChatCall c).1)).flatten

/-- JS truthy text on a part (`p.text` truthy: present and nonempty). -/
def truthyTextPart (p : PartRec) : Bool :=
  match p.text with
  | some t => t ≠ ""
  | none => false

/-- The outcome of one `executeChat` invocation: the returned string, how
many `generateContent` calls were issued, every callback invocation in
dispatch order, and the final `contents` list. -/
structure ChatOutcome where
  text : String
  calls : Nat
  effects : List ToolEffect
  contents : List ContentRec

/-- The `while (turnCount < MAX_TURNS)` loop, lines 242-316.  `fuel` is
`MAX_TURNS - turnCount`; `calls` counts issued model calls (so equals
`turnCount` after the line-243 increment). -/
def chatLoop (script : Nat → Option (List PartRec)) :
    Nat → Nat → String → List ContentRec → List ToolEffect → ChatOutcome
  | 0, calls, finalText, contents, effs => ⟨finalText, calls, effs, contents⟩
  | fuel + 1, calls, finalText, contents, effs =>
    match script calls with
    | none =>
      let finalText := if calls + 1 = 1 then
        "I\x27m sorry, I got distracted by a butterfly. What did you say?" else finalText
      ⟨finalText, calls + 1, effs, contents⟩
    | some parts =>
      let valid := parts.filter validPart
      if valid.isEmpty then
        let finalText := if finalText = "" then
          "I can\x27t talk about that right now, but let\x27s play!" else finalText
        ⟨finalText, calls + 1, effs, contents⟩
      else
        let contents := contents ++ [⟨"model", valid⟩]
        let fcalls := partFunctionCalls valid
        if ¬ fcalls.isEmpty then
          chatLoop script fuel (calls + 1) finalText
            (contents ++ [⟨"user", toolResponseParts fcalls⟩])
            (effs ++ dispatchAllEffects fcalls)
        else
          let finalText := match valid.find? truthyTextPart with
            | some p => p.text.getD ""
            | none => ""
          ⟨finalText, calls + 1, effs, contents⟩

/-- Lines 230-236: the initial `contents` built from history (blank
history texts are replaced by `"..."`) plus the new user turn. -/
def initialContents (history : List ChatMessageRec) (promptParts : List PartRec) :
    List ContentRec :=
  (history.map (fun h =>
    ContentRec.mk h.role
      [{ text := some (if h.text ≠ "" ∧ (jsTrim h.text.data).length > 0
                       then h.text else "...") }])) ++
  [⟨"user", promptParts⟩]

/-- Line 318: `return finalResponseText || "..."`. -/
def finishChat (o : ChatOutcome) : ChatOutcome :=
  { o with text := if o.text = "" then "..." else o.text }

/-- `executeChat` (scripted-response view): build the initial `contents`,
run the loop with `MAX_TURNS = 5`, and apply the final fallback. -/
def executeChat (script : Nat → Option (List PartRec))
    (history : List ChatMessageRec) (promptParts : List PartRec) : ChatOutcome :=
  finishChat (chatLoop script 5 0 "" (initialContents history promptParts) [])

/-! ## `assessPronunciation` (geminiService.ts lines 409-471)

One remote call; the response content is the parameter.  Tool calls are
dispatched to `onMoodUpdate` / `onTaskUpdate`; the returned string is the
first truthy text part or the fixed retry prompt. -/

/-- Lines 443-463: dispatch one tool call of the assessment response. -/
def dispatchAssessCall (c : FunctionCallRec) : List ToolEffect :=
  (if c.name = "setMood" then [ToolEffect.moodUpdate (argGet c "mood")] else []) ++
  (if c.name = "manageSpeechTask" then
    [ToolEffect.taskUpdate (argGet c "taskId") (argGet c "status") (argGet c "urgency")
      (if jsTruthyOpt (argGet c "strengths") ∨ jsTruthyOpt (argGet c "needsWork") ∨
          jsTruthyOpt (argGet c "howToHelp") then
        some (argGet c "strengths", argGet c "needsWork", argGet c "howToHelp")
      else none)]
  else [])

/-- The fixed retry prompt returned when no text part is present. -/
def retryPrompt : String := "I couldn\x27t quite hear that. Can you try again?"

/-- Lines 440-467 on a present content's parts: collect the function
calls, dispatch each, and extract the first truthy text part. -/
def assessOutcomeOfParts (parts : List PartRec) : String × List ToolEffect :=
  let calls := partFunctionCalls parts
  let effs := (calls.map dispatchAssessCall).flatten
  let finalText := match parts.find? truthyTextPart with
    | some p => p.text.getD ""
    | none => ""
  (if finalText = "" then retryPrompt else finalText, effs)

/-- Lines 437-469 applied to the response content: the returned feedback
string and the callback invocations. -/
def assessOutcome : Option (List PartRec) → String × List ToolEffect
  | none => (retryPrompt, [])
  | some parts => assessOutcomeOfParts parts

/-- The function calls the assessment dispatch loop sees. -/
def assessCalls : Option (List PartRec) → List FunctionCallRec
  | some parts => partFunctionCalls parts
  | none => []

/-- The first truthy text part of an assessment response, if any. -/
def assessFoundText : Option (List PartRec) → Option PartRec
  | some parts => parts.find? truthyTextPart
  | none => none

/-- `assessPronunciation`, applied to the remote outcome. -/
def assessPronunciation (remote : Except JsError (Option (List PartRec))) :
    Except GeminiErrorRec (String × List ToolEffect) :=
  withErrorHandling (remote.map assessOutcome)

/-! ## Audio codec (audioUtils.ts)

Byte buffers are `List Nat` (each entry a `Uint8Array` element, hence
`< 256`); float samples are exact rationals (every value arising here —
an `Int16` divided by `32768` — is exactly representable in binary32, so
the JS `Float32Array` stores it without rounding). -/

/-- An `AudioBuffer`: one channel of float samples at a sample rate. -/
structure AudioBufferRec where
  samples : List ℚ
  sampleRate : Nat

/-- `new Int16Array(data.buffer)`: reinterpret consecutive byte pairs as
little-endian two's-complement 16-bit integers. -/
def bytesToInt16s : List Nat → List Int
  | lo :: hi :: rest =>
    (let u := lo % 256 + 256 * (hi % 256)
     if u < 32768 then (u : Int) else (u : Int) - 65536) :: bytesToInt16s rest
  | _ => []

/-- `pcmToAudioBuffer` (lines 2-17): the `Int16Array` constructor throws a
`RangeError` on a buffer of odd byte length — the typed malformed-input
failure.  Otherwise `ctx.createBuffer(1, frameCount, sampleRate)` is
called with `frameCount = pcm16.length`; the Web Audio API requires it
to throw `NotSupportedError` when the frame count is zero, i.e. on the
empty byte buffer.  (`createBuffer` also validates the sample rate, but
this program only ever passes 24000, inside every conforming
implementation's mandatory supported range, so that branch is not
observable here.)  Each sample is the 16-bit value divided by
`32768.0`. -/
def pcmToAudioBuffer (data : List Nat) (sampleRate : Nat) : Except String AudioBufferRec :=
  if data.length % 2 ≠ 0 then
    .error "byte length of Int16Array should be a multiple of 2"
  else if (bytesToInt16s data).length = 0 then
    .error "createBuffer: the number of frames must be at least 1"
  else
    .ok ⟨(bytesToInt16s data).map (fun (v : Int) => (v : ℚ) / 32768), sampleRate⟩

/-- `concatenateAudioBuffers` (lines 19-38): `null` on an empty list,
otherwise the segments copied in order at cumulative offsets, at the
first buffer's sample rate. -/
def concatenateAudioBuffers : List AudioBufferRec → Option AudioBufferRec
  | [] => none
  | b :: bs =>
    some ⟨(b :: bs).foldl (fun acc x => acc ++ x.samples) [], b.sampleRate⟩

/-! ### The `DataView` write model

`audioBufferToWav` allocates `44 + dataLength` zero bytes and performs
sequential `setUint8` / `setUint16` / `setUint32` / `setInt16`
little-endian writes.  The view is modelled as an indexed byte store
`Nat → Nat` (zero-initialised, as `ArrayBuffer` is), and the blob's
bytes are the store read off over `[0, bufferLength)`.  `setInt16`
converts its JS number by truncation toward zero, then wraps modulo
`2^16` (ECMAScript `ToIntegerOrInfinity` followed by `ToUint16`). -/

/-- `view.setUint8(off, v)`. -/
def dvSetU8 (m : Nat → Nat) (off v : Nat) : Nat → Nat :=
  fun i => if i = off then v % 256 else m i

/-- `view.setUint16(off, v, true)` (little endian). -/
def dvSetU16 (m : Nat → Nat) (off v : Nat) : Nat → Nat :=
  dvSetU8 (dvSetU8 m off v) (off + 1) (v / 256)

/-- `view.setUint32(off, v, true)`. -/
def dvSetU32 (m : Nat → Nat) (off v : Nat) : Nat → Nat :=
  dvSetU8 (dvSetU8 (dvSetU8 (dvSetU8 m off v) (off + 1) (v / 256))
    (off + 2) (v / 65536)) (off + 3) (v / 16777216)

/-- Truncation toward zero of a rational (JS number-to-integer conversion). -/
def ratTrunc (x : ℚ) : Int := if x < 0 then -⌊-x⌋ else ⌊x⌋

/-- `view.setInt16(off, x, true)` on a JS number `x`. -/
def dvSetI16 (m : Nat → Nat) (off : Nat) (x : ℚ) : Nat → Nat :=
  dvSetU16 m off ((ratTrunc x % 65536).toNat)

/-- The `writeString` helper (lines 51-55): one `setUint8` per char code. -/
def dvWriteChars (m : Nat → Nat) (off : Nat) : List Char → Nat → Nat
  | [] => m
  | c :: cs => dvWriteChars (dvSetU8 m off c.toNat) (off + 1) cs

/-- The sample loop (lines 71-78): clamp to `[-1, 1]`, scale negatives by
`0x8000` and non-negatives by `0x7FFF`, write as little-endian `Int16`
at offsets `44, 46, …`. -/
def wavWriteSamples (m : Nat → Nat) (off : Nat) : List ℚ → Nat → Nat
  | [] => m
  | s :: rest =>
    let sample := max (-1) (min 1 s)
    wavWriteSamples
      (dvSetI16 m off (if sample < 0 then sample * 32768 else sample * 32767))
      (off + 2) rest

/-- Reading `len` bytes out of the view. -/
def dvBytes (m : Nat → Nat) (len : Nat) : List Nat := (List.range len).map m

/-- The thirteen header writes of `audioBufferToWav` (`d` the data
length, `r` the sample rate) on the zero-initialised store. -/
def wavHeaderStore (d r : Nat) : Nat → Nat :=
  dvSetU32 (dvWriteChars (dvSetU16 (dvSetU16 (dvSetU32 (dvSetU32 (dvSetU16 (dvSetU16
    (dvSetU32 (dvWriteChars (dvWriteChars (dvSetU32 (dvWriteChars
      (fun _ => 0) 0 "RIFF".data)
      4 (36 + d)) 8 "WAVE".data) 12 "fmt ".data) 16 16) 20 1) 22 1) 24 r)
    28 (r * 1 * 2)) 32 (1 * 2)) 34 16) 36 "data".data) 40 d

/-- `audioBufferToWav` (lines 40-81): mono (`numChannels = 1`), 16-bit
(`bitDepth = 16`), PCM (`format = 1`); the returned blob's bytes: the
thirteen header writes (with byte rate `sampleRate * numChannels * 2`
and block align `numChannels * 2`), then the sample loop from offset 44,
read off over the allocated `44 + dataLength` bytes. -/
def audioBufferToWav (buffer : AudioBufferRec) : List Nat :=
  let dataLength := buffer.samples.length * 1 * 2
  let bufferLength := 44 + dataLength
  dvBytes
    (wavWriteSamples (wavHeaderStore dataLength buffer.sampleRate) 44 buffer.samples)
    bufferLength

/-! ### Byte-layout reference, from the spec's words

`wavSpecBytes` writes the layout of spec §4.1 `encodeWav` directly as a
concatenation of field encodings, to be compared with the sequential
`DataView` writes above. -/

/-- A 16-bit little-endian unsigned field. -/
def u16leBytes (v : Nat) : List Nat := [v % 256, v / 256 % 256]

/-- A 32-bit little-endian unsigned field. -/
def u32leBytes (v : Nat) : List Nat :=
  [v % 256, v / 256 % 256, v / 65536 % 256, v / 16777216 % 256]

/-- A 16-bit little-endian signed field (two's complement). -/
def i16leBytes (v : Int) : List Nat := u16leBytes ((v % 65536).toNat)

/-- ASCII bytes of a tag string. -/
def asciiBytes (s : String) : List Nat := s.data.map Char.toNat

/-- Modelled from the spec: clamp to `[-1,1]`, scale by `32767` if
non-negative and by `32768` if negative, as a 16-bit integer. -/
def specSampleInt (x : ℚ) : Int :=
  let c := max (-1) (min 1 x)
  ratTrunc (if c < 0 then c * 32768 else c * 32767)

/-- Modelled from the spec: the canonical 44-byte-header mono 16-bit PCM
WAV layout of §4.1 (`RIFF` size `36+dataSize`, `fmt ` chunk with PCM=1,
mono, the rate, byte rate `rate×2`, block align 2, 16 bits/sample, then
a `data` chunk of `2n` bytes of little-endian samples). -/
def wavSpecBytes (samples : List ℚ) (rate : Nat) : List Nat :=
  asciiBytes "RIFF" ++ u32leBytes (36 + 2 * samples.length) ++ asciiBytes "WAVE" ++
  asciiBytes "fmt " ++ u32leBytes 16 ++ u16leBytes 1 ++ u16leBytes 1 ++
  u32leBytes rate ++ u32leBytes (rate * 2) ++ u16leBytes 2 ++ u16leBytes 16 ++
  asciiBytes "data" ++ u32leBytes (2 * samples.length) ++
  (samples.map (fun s => i16leBytes (specSampleInt s))).flatten

/-! ## Predicates used by the theorem statements -/

/-- A quota signature in a JS error's message (`"429"` or `"quota"`),
as tested on line 43; only meaningful when the message is truthy. -/
def quotaSig (e : JsError) : Bool :=
  truthyStr e.message &&
    (jsIncludes (jsOrStr e.message "") "429" || jsIncludes (jsOrStr e.message "") "quota")

/-- An overload signature in a JS error's message (`"503"` or
`"overloaded"`), as tested on line 46. -/
def overloadSig (e : JsError) : Bool :=
  truthyStr e.message &&
    (jsIncludes (jsOrStr e.message "") "503" || jsIncludes (jsOrStr e.message "") "overloaded")

/-- The status attached to a JS error (`error.status || error.response?.status`). -/
def rawStatus (e : JsError) : Option Nat := jsOrNat e.status e.responseStatus

/-- The generation result lacks a usable word: the text fails to parse,
member access throws, or `data.word` is falsy. -/
def lacksTruthyWord (t : Option String) : Bool :=
  match parseJsonOrEmpty t with
  | .error _ => true
  | .ok v =>
    match jMember v "word" with
    | .error _ => true
    | .ok w => ¬ jsTruthyOpt w

/-- A scripted model response whose filtered parts contain a tool call. -/
def hasToolCallResponse (r : Option (List PartRec)) : Bool :=
  match r with
  | some parts => ¬ (partFunctionCalls (parts.filter validPart)).isEmpty
  | none => false

/-- Whether a recorded callback invocation is a task update. -/
def isTaskUpdateEffect : ToolEffect → Bool
  | .taskUpdate _ _ _ _ => true
  | _ => false

/-- Total length of the samples of the first `i` buffers (the write offset
of the `i`-th segment inside the concatenation). -/
def sumLenTo (bufs : List AudioBufferRec) (i : Nat) : Nat :=
  ((bufs.take i).map (fun b => b.samples.length)).sum

/-- Placeholder buffer for `getD` indexing. -/
def dummyBuf : AudioBufferRec := ⟨[], 0⟩

/-- Placeholder function call for `getD` indexing. -/
def dummyCall : FunctionCallRec := ⟨"", [], none⟩

/-- Placeholder part for `getD` indexing. -/
def dummyPart : PartRec := {}

/-! ## C5: odd-length PCM input raises the malformed-input error -/

/-- Claim C5: for every byte buffer of odd length, `pcmToAudioBuffer`
raises the typed malformed-audio-input failure (the `RangeError` thrown
by the `Int16Array` constructor) rather than silently truncating the
trailing byte or succeeding. -/
theorem pcmToAudioBuffer_odd_raises (data : List Nat) (rate : Nat)
    (hodd : data.length % 2 = 1) :
    pcmToAudioBuffer data rate =
      .error "byte length of Int16Array should be a multiple of 2" := by
  unfold pcmToAudioBuffer
  rw [if_pos]
  omega

/-- Witness for C5: the singleton buffer `[0]` has odd length and decoding
it fails with the malformed-input error. -/
theorem pcmToAudioBuffer_odd_raises_witness :
    pcmToAudioBuffer [0] 24000 =
      .error "byte length of Int16Array should be a multiple of 2" :=
  pcmToAudioBuffer_odd_raises [0] 24000 (by decide)

/-! ## C8: error classification -/

/-- Counterexample to claim C8 as stated: the message `"quota"` carries a
quota signature, yet because the error also carries HTTP status `500`
the classifier never consults the message and yields the 5000 ms default
with `isQuotaError = false`, not 60000 ms with `isQuotaError = true`. -/
theorem withErrorHandling_quota_message_counterexample :
    quotaSig ⟨some 500, none, some "quota"⟩ = true ∧
    withErrorHandlingErr ⟨some 500, none, some "quota"⟩ = ⟨"quota", 5000, false⟩ := by
  constructor
  · decide
  · decide

/-- The status computed on lines 39-48, phrased through the signature
predicates. -/
theorem classifyStatus_eq (e : JsError) :
    classifyStatus e =
      if falsyStatus (rawStatus e) = true ∧ quotaSig e = true then some 429
      else if falsyStatus (rawStatus e) = true ∧ overloadSig e = true then some 503
      else rawStatus e := by
  unfold classifyStatus rawStatus quotaSig overloadSig
  simp only [Bool.and_eq_true, Bool.or_eq_true]

/-- Claim C8, amended: the message signature is consulted only when the
error carries no (truthy) HTTP status.  Status 429, or a statusless error
with a quota/429 message signature, yields 60000 ms and the quota flag;
status 503, or a statusless error with an overload/503 signature (and no
quota signature, which takes priority), yields 10000 ms; everything else
yields 5000 ms with the original message or the generic fallback. -/
theorem withErrorHandling_classification (e : JsError) :
    (rawStatus e = some 429 ∨ (falsyStatus (rawStatus e) = true ∧ quotaSig e = true) →
      withErrorHandlingErr e =
        ⟨"I\x27m thinking too fast! I need a short nap.", 60000, true⟩) ∧
    (rawStatus e = some 503 ∨
        (falsyStatus (rawStatus e) = true ∧ quotaSig e = false ∧ overloadSig e = true) →
      withErrorHandlingErr e = ⟨"My brain is a bit foggy. Give me a moment.", 10000, false⟩) ∧
    (¬ (rawStatus e = some 429 ∨ (falsyStatus (rawStatus e) = true ∧ quotaSig e = true)) →
     ¬ (rawStatus e = some 503 ∨
        (falsyStatus (rawStatus e) = true ∧ quotaSig e = false ∧ overloadSig e = true)) →
      withErrorHandlingErr e =
        ⟨jsOrStr e.message "Something went wrong. Let\x27s try again.", 5000, false⟩) := by
  have hc : withErrorHandlingErr e = mkGeminiError e.message (classifyStatus e) := rfl
  refine ⟨?_, ?_, ?_⟩
  · rintro (h | ⟨hf, hq⟩)
    · have hnf : falsyStatus (rawStatus e) = false := by rw [h]; rfl
      have hcs : classifyStatus e = some 429 := by
        rw [classifyStatus_eq, hnf]
        simp [h]
      rw [hc, hcs]; rfl
    · have hcs : classifyStatus e = some 429 := by
        rw [classifyStatus_eq]
        simp [hf, hq]
      rw [hc, hcs]; rfl
  · rintro (h | ⟨hf, hq, ho⟩)
    · have hnf : falsyStatus (rawStatus e) = false := by rw [h]; rfl
      have hcs : classifyStatus e = some 503 := by
        rw [classifyStatus_eq, hnf]
        simp [h]
      rw [hc, hcs]; rfl
    · have hcs : classifyStatus e = some 503 := by
        rw [classifyStatus_eq]
        simp [hf, hq, ho]
      rw [hc, hcs]; rfl
  · intro h1 h2
    have h429 : rawStatus e ≠ some 429 := fun hcon => h1 (Or.inl hcon)
    have h503 : rawStatus e ≠ some 503 := fun hcon => h2 (Or.inl hcon)
    have hcs : classifyStatus e = rawStatus e := by
      rw [classifyStatus_eq]
      by_cases hf : falsyStatus (rawStatus e) = true
      · have hq : quotaSig e = false := by
          cases hqe : quotaSig e
          · rfl
          · exact absurd (Or.inr ⟨hf, hqe⟩) h1
        have ho : overloadSig e = false := by
          cases hoe : overloadSig e
          · rfl
          · exact absurd (Or.inr ⟨hf, hq, hoe⟩) h2
        simp [hq, ho]
      · simp [hf]
    rw [hc, hcs]
    unfold mkGeminiError
    rw [if_neg h429, if_neg h503]

/-- Witness for C8's amended classification at concrete errors of all
three classes. -/
theorem withErrorHandling_classification_witness :
    withErrorHandlingErr ⟨none, some 429, some "x"⟩ =
      ⟨"I\x27m thinking too fast! I need a short nap.", 60000, true⟩ ∧
    withErrorHandlingErr ⟨none, none, some "model is overloaded"⟩ =
      ⟨"My brain is a bit foggy. Give me a moment.", 10000, false⟩ ∧
    withErrorHandlingErr ⟨none, none, some "boom"⟩ = ⟨"boom", 5000, false⟩ :=
  ⟨(withErrorHandling_classification ⟨none, some 429, some "x"⟩).1 (by decide),
   (withErrorHandling_classification ⟨none, none, some "model is overloaded"⟩).2.1
     (by decide),
   (withErrorHandling_classification ⟨none, none, some "boom"⟩).2.2
     (by decide) (by decide)⟩

/-! ## C1: task generation on failure -/

/-- Counterexample to claim C1 as stated: when the remote generation call
throws, `generateTherapyTask` does not return any default task — the
error is reclassified and propagated as a `GeminiError`. -/
theorem generateTherapyTask_counterexample :
    generateTherapyTask (Except.error ⟨none, none, some "network error"⟩) 0 =
      Except.error ⟨"network error", 5000, false⟩ := rfl

/-- Claim C1, amended: if the remote generation call throws, or the
returned text does not yield a JSON value with a truthy `word` member
(parse failure, throwing member access, or missing/falsy word),
`generateTherapyTask` propagates a classified `GeminiError` to the
caller; no default task is produced anywhere in the method. -/
theorem generateTherapyTask_failure_raises
    (remote : Except JsError (Option String)) (now : Nat)
    (h : (∃ e, remote = Except.error e) ∨
      (∃ t, remote = Except.ok t ∧ lacksTruthyWord t = true)) :
    ∃ ge, generateTherapyTask remote now = Except.error ge := by
  rcases h with ⟨e, rfl⟩ | ⟨t, rfl, hw⟩
  · exact ⟨withErrorHandlingErr e, rfl⟩
  · unfold lacksTruthyWord at hw
    have hred : generateTherapyTask (Except.ok t) now =
        withErrorHandling (genTaskBody t now) := rfl
    rw [hred]
    unfold genTaskBody
    cases hp : parseJsonOrEmpty t with
    | error e' => exact ⟨withErrorHandlingErr e', rfl⟩
    | ok v =>
      show ∃ ge, withErrorHandling (genTaskFromJson v now) = Except.error ge
      rw [hp] at hw
      have hw2 : (match jMember v "word" with
          | Except.error _ => true
          | Except.ok w => ¬ jsTruthyOpt w : Bool) = true := by
        simpa using hw
      unfold genTaskFromJson
      cases hj : jMember v "word" with
      | error e' => exact ⟨withErrorHandlingErr e', rfl⟩
      | ok w =>
        rw [hj] at hw2
        have hw' : jsTruthyOpt w = false := by simpa using hw2
        show ∃ ge, withErrorHandling (genTaskFromWord v w now) = Except.error ge
        unfold genTaskFromWord
        rw [hw']
        exact ⟨withErrorHandlingErr ⟨none, none, some "Invalid format"⟩, rfl⟩

/-- Witness for C1's amended statement: a throwing remote call makes
`generateTherapyTask` produce an error. -/
theorem generateTherapyTask_failure_raises_witness :
    ∃ ge, generateTherapyTask (Except.error ⟨none, none, some "boom"⟩) 7 =
      Except.error ge :=
  generateTherapyTask_failure_raises (Except.error ⟨none, none, some "boom"⟩) 7
    (Or.inl ⟨⟨none, none, some "boom"⟩, rfl⟩)

/-! ## C10: baseline analysis error policy -/

/-- Claim C10: `analyzeBaseline` propagates a classified error exactly
when the remote call throws or the returned text is nonempty and not
valid JSON; an empty or absent text payload parses the literal
`"\x7b\x7d"` and yields the empty object. -/
theorem analyzeBaseline_classification (remote : Except JsError (Option String)) :
    (∀ e, remote = Except.error e →
      analyzeBaseline remote = Except.error (withErrorHandlingErr e)) ∧
    (∀ t, remote = Except.ok t → (t = none ∨ t = some "") →
      analyzeBaseline remote = Except.ok (Json.obj [])) ∧
    (∀ s, remote = Except.ok (some s) → s ≠ "" →
      ((∃ ge, analyzeBaseline remote = Except.error ge) ↔ jsonParse s = none)) := by
  refine ⟨?_, ?_, ?_⟩
  · rintro e rfl
    rfl
  · rintro t rfl (rfl | rfl) <;> rfl
  · rintro s rfl hs
    have hor : jsOrStr (some s) "\x7b\x7d" = s := by
      simp [jsOrStr, hs]
    have key : analyzeBaseline (Except.ok (some s)) =
        withErrorHandling (match jsonParse s with
          | some v => Except.ok v
          | none => Except.error jsonSyntaxError) := by
      show withErrorHandling (parseJsonOrEmpty (some s)) = _
      unfold parseJsonOrEmpty
      rw [hor]
    rw [key]
    cases hp : jsonParse s with
    | none =>
      exact iff_of_true ⟨withErrorHandlingErr jsonSyntaxError, rfl⟩ rfl
    | some v =>
      apply iff_of_false
      · rintro ⟨ge, hge⟩
        exact Except.noConfusion hge
      · intro hcon
        exact Option.noConfusion hcon

/-- Witness for C10 at concrete remotes of all three shapes. -/
theorem analyzeBaseline_classification_witness :
    analyzeBaseline (Except.error ⟨some 503, none, some "overloaded"⟩) =
      Except.error (withErrorHandlingErr ⟨some 503, none, some "overloaded"⟩) ∧
    analyzeBaseline (Except.ok none) = Except.ok (Json.obj []) ∧
    ((∃ ge, analyzeBaseline (Except.ok (some "not json")) = Except.error ge) ↔
      jsonParse "not json" = none) :=
  ⟨(analyzeBaseline_classification (Except.error ⟨some 503, none, some "overloaded"⟩)).1
      _ rfl,
   (analyzeBaseline_classification (Except.ok none)).2.1 none rfl (Or.inl rfl),
   (analyzeBaseline_classification (Except.ok (some "not json"))).2.2 "not json" rfl
      (by decide)⟩

/-! ## C7: buffer concatenation -/

/-- The copy loop of `concatenateAudioBuffers` produces the segments in
order. -/
theorem foldl_append_eq_flatten (bufs : List AudioBufferRec) (acc : List ℚ) :
    bufs.foldl (fun acc x => acc ++ x.samples) acc
      = acc ++ (bufs.map (fun b => b.samples)).flatten := by
  induction bufs generalizing acc with
  | nil => simp
  | cons b bs ih => simp [ih, List.append_assoc]

/-- Indexing into a flattened list of segments at a segment offset. -/
theorem flatten_getD_segment (L : List (List ℚ)) :
    ∀ i, i < L.length → ∀ k, k < (L.getD i []).length →
      L.flatten.getD (((L.take i).map List.length).sum + k) 0 = (L.getD i []).getD k 0 := by
  induction L with
  | nil =>
    intro i hi
    simp at hi
  | cons x xs ih =>
    intro i hi k hk
    cases i with
    | zero =>
      simp only [List.take_zero, List.map_nil, List.sum_nil, Nat.zero_add,
        List.flatten_cons, List.getD_cons_zero] at hk ⊢
      exact List.getD_append _ _ _ _ hk
    | succ j =>
      simp only [List.take_succ_cons, List.map_cons, List.sum_cons, List.flatten_cons,
        List.getD_cons_succ] at hk ⊢
      rw [Nat.add_assoc, List.getD_append_right _ _ _ _ (Nat.le_add_right _ _),
        Nat.add_sub_cancel_left]
      exact ih j (by simpa using hi) k hk

/-- Claim C7: concatenation of a non-empty family of equal-rate buffers
has the summed length and preserves every segment's samples at its
cumulative offset; the empty family yields the defined `null` result. -/
theorem concatenateAudioBuffers_spec (bufs : List AudioBufferRec) (r : Nat)
    (hne : bufs ≠ []) (hrate : ∀ b ∈ bufs, b.sampleRate = r) :
    concatenateAudioBuffers [] = none ∧
    ∃ out, concatenateAudioBuffers bufs = some out ∧
      out.samples.length = (bufs.map (fun b => b.samples.length)).sum ∧
      ∀ i, i < bufs.length → ∀ k, k < (bufs.getD i dummyBuf).samples.length →
        out.samples.getD (sumLenTo bufs i + k) 0 = (bufs.getD i dummyBuf).samples.getD k 0 := by
  refine ⟨rfl, ?_⟩
  match bufs with
  | [] => exact absurd rfl hne
  | b :: bs =>
    refine ⟨⟨(b :: bs).foldl (fun (acc : List ℚ) (x : AudioBufferRec) =>
      acc ++ x.samples) [], b.sampleRate⟩, rfl, ?_, ?_⟩
    · rw [foldl_append_eq_flatten, List.nil_append, List.length_flatten, List.map_map]
      rfl
    · intro i hi k hk
      rw [foldl_append_eq_flatten, List.nil_append]
      have hgd : ((b :: bs).map (fun b => b.samples)).getD i [] =
          ((b :: bs).getD i dummyBuf).samples := by
        rw [List.getD_eq_getElem _ _ (by simpa using hi),
          List.getD_eq_getElem _ _ hi, List.getElem_map]
      have hsum : sumLenTo (b :: bs) i =
          ((((b :: bs).map (fun b => b.samples)).take i).map List.length).sum := by
        unfold sumLenTo
        rw [← List.map_take]
        simp [List.map_map, Function.comp_def]
      rw [hsum]
      rw [show (((b :: bs).map (fun b => b.samples)).flatten.getD
          ((((((b :: bs).map (fun b => b.samples)).take i).map List.length).sum) + k) 0) =
          (((b :: bs).map (fun b => b.samples)).getD i []).getD k 0 from
        flatten_getD_segment _ i (by simpa using hi) k (by rw [hgd]; exact hk)]
      rw [hgd]

/-- Witness for C7 at a concrete two-buffer family. -/
theorem concatenateAudioBuffers_spec_witness :
    concatenateAudioBuffers [] = none ∧
    ∃ out, concatenateAudioBuffers
        [⟨[(1 : ℚ)/2, 1/4], 24000⟩, ⟨[-(1 : ℚ)/8], 24000⟩] = some out ∧
      out.samples.length =
        (([⟨[(1 : ℚ)/2, 1/4], 24000⟩, ⟨[-(1 : ℚ)/8], 24000⟩] :
          List AudioBufferRec).map (fun b => b.samples.length)).sum ∧
      ∀ i, i < ([⟨[(1 : ℚ)/2, 1/4], 24000⟩, ⟨[-(1 : ℚ)/8], 24000⟩] :
          List AudioBufferRec).length →
        ∀ k, k < (([⟨[(1 : ℚ)/2, 1/4], 24000⟩, ⟨[-(1 : ℚ)/8], 24000⟩] :
            List AudioBufferRec).getD i dummyBuf).samples.length →
        out.samples.getD
            (sumLenTo [⟨[(1 : ℚ)/2, 1/4], 24000⟩, ⟨[-(1 : ℚ)/8], 24000⟩] i + k) 0 =
          (([⟨[(1 : ℚ)/2, 1/4], 24000⟩, ⟨[-(1 : ℚ)/8], 24000⟩] :
            List AudioBufferRec).getD i dummyBuf).samples.getD k 0 :=
  concatenateAudioBuffers_spec
    [⟨[(1 : ℚ)/2, 1/4], 24000⟩, ⟨[-(1 : ℚ)/8], 24000⟩] 24000
    (List.cons_ne_nil _ _) (by decide)

/-! ## C9: assessment leaves the task unchanged without a tool call -/

/-- A non-`manageSpeechTask` call dispatches no task update. -/
theorem dispatchAssessCall_no_task (c : FunctionCallRec)
    (h : c.name ≠ "manageSpeechTask") :
    (dispatchAssessCall c).filter isTaskUpdateEffect = [] := by
  unfold dispatchAssessCall
  rw [if_neg h]
  by_cases hm : c.name = "setMood" <;> simp [hm, isTaskUpdateEffect]

/-- Dispatching a call list without `manageSpeechTask` yields no task
updates. -/
theorem dispatchAssess_flatten_no_task (calls : List FunctionCallRec)
    (h : ∀ c ∈ calls, c.name ≠ "manageSpeechTask") :
    ((calls.map dispatchAssessCall).flatten).filter isTaskUpdateEffect = [] := by
  induction calls with
  | nil => rfl
  | cons c cs ih =>
    rw [List.map_cons, List.flatten_cons, List.filter_append,
      dispatchAssessCall_no_task c (h c (List.mem_cons_self c cs)),
      ih (fun d hd => h d (List.mem_cons_of_mem c hd))]
    rfl

/-- Claim C9: if the assessment response contains no `manageSpeechTask`
tool call, the task-update callback is never invoked; the returned
utterance is the first truthy text part, or the fixed retry prompt when
no text part is present (and when the response has no content). -/
theorem assessOutcome_frame (content : Option (List PartRec)) :
    ((∀ c ∈ assessCalls content, c.name ≠ "manageSpeechTask") →
      (assessOutcome content).2.filter isTaskUpdateEffect = []) ∧
    (∀ p t, assessFoundText content = some p → p.text = some t →
      (assessOutcome content).1 = t) ∧
    ((assessFoundText content).isNone = true → (assessOutcome content).1 = retryPrompt) := by
  refine ⟨?_, ?_, ?_⟩
  · intro h
    cases content with
    | none => rfl
    | some parts =>
      exact dispatchAssess_flatten_no_task _ h
  · intro p t hf ht
    cases content with
    | none => exact Option.noConfusion hf
    | some parts =>
      have hf' : parts.find? truthyTextPart = some p := hf
      have hp : truthyTextPart p = true := List.find?_some hf'
      unfold truthyTextPart at hp
      rw [ht] at hp
      have htne : t ≠ "" := by simpa using hp
      show (assessOutcomeOfParts parts).1 = t
      unfold assessOutcomeOfParts
      simp only [hf', ht]
      simp [htne]
  · intro h
    cases content with
    | none => rfl
    | some parts =>
      have hn : parts.find? truthyTextPart = none := Option.isNone_iff_eq_none.mp h
      show (assessOutcomeOfParts parts).1 = retryPrompt
      unfold assessOutcomeOfParts
      simp only [hn]
      simp

/-- Witness for C9 at a concrete response with a mood tool call and one
text part. -/
theorem assessOutcome_frame_witness :
    (assessOutcome (some [{ text := some "Great job!" },
      { functionCall := some ⟨"setMood", [("mood", Json.str "happy")], none⟩ }])).2.filter
        isTaskUpdateEffect = [] ∧
    (assessOutcome (some [{ text := some "Great job!" },
      { functionCall := some ⟨"setMood", [("mood", Json.str "happy")], none⟩ }])).1 =
      "Great job!" :=
  ⟨(assessOutcome_frame (some [{ text := some "Great job!" },
      { functionCall := some ⟨"setMood", [("mood", Json.str "happy")], none⟩ }])).1
      (by decide),
   (assessOutcome_frame (some [{ text := some "Great job!" },
      { functionCall := some ⟨"setMood", [("mood", Json.str "happy")], none⟩ }])).2.1
      { text := some "Great job!" } "Great job!" rfl rfl⟩

/-! ## C2/C3: the bounded tool-calling loop -/

/-- One loop iteration on a response carrying tool calls: the filtered
response and the single combined tool-result turn are appended, all
dispatch effects are recorded, and the loop re-enters with one more call
issued. -/
theorem chatLoop_step_toolCalls (script : Nat → Option (List PartRec))
    (fuel calls : Nat) (ftext : String) (contents : List ContentRec)
    (effs : List ToolEffect) (parts : List PartRec)
    (hresp : script calls = some parts)
    (hfc : (partFunctionCalls (parts.filter validPart)).isEmpty = false) :
    chatLoop script (fuel + 1) calls ftext contents effs =
      chatLoop script fuel (calls + 1) ftext
        (contents ++ [⟨"model", parts.filter validPart⟩,
          ⟨"user", toolResponseParts (partFunctionCalls (parts.filter validPart))⟩])
        (effs ++ dispatchAllEffects (partFunctionCalls (parts.filter validPart))) := by
  have hvalid : (parts.filter validPart).isEmpty = false := by
    cases hv : parts.filter validPart with
    | nil => rw [hv] at hfc; simp [partFunctionCalls] at hfc
    | cons a l => rfl
  rw [chatLoop, hresp]
  simp only [hvalid, hfc, Bool.false_eq_true, not_false_eq_true, if_true, if_false,
    List.append_assoc, List.cons_append, List.nil_append, not_true_eq_false]

/-- The loop never issues more calls than it has fuel. -/
theorem chatLoop_calls_le (script : Nat → Option (List PartRec)) :
    ∀ fuel calls ftext contents effs,
      (chatLoop script fuel calls ftext contents effs).calls ≤ calls + fuel := by
  intro fuel
  induction fuel with
  | zero =>
    intro calls ftext contents effs
    simp [chatLoop]
  | succ n ih =>
    intro calls ftext contents effs
    rw [chatLoop]
    cases hresp : script calls with
    | none => simp
    | some parts =>
      by_cases hvalid : (parts.filter validPart).isEmpty = true
      · simp only [hvalid, if_true]
        simp
      · simp only [hvalid, if_false]
        by_cases hfc : (partFunctionCalls (parts.filter validPart)).isEmpty = false
        · simp only [hfc, Bool.false_eq_true, not_false_eq_true, if_true]
          calc (chatLoop script n (calls + 1) ftext _ _).calls
              ≤ (calls + 1) + n := ih (calls + 1) ftext _ _
            _ = calls + (n + 1) := by omega
        · have hfc' : (partFunctionCalls (parts.filter validPart)).isEmpty = true := by
            cases h : (partFunctionCalls (parts.filter validPart)).isEmpty
            · exact absurd h hfc
            · rfl
          simp only [hfc', not_true_eq_false, if_false]
          simp

/-- If every consulted response carries a tool call, the loop burns all
its fuel, keeps the accumulated text unchanged, and stops. -/
theorem chatLoop_toolCalls_all (script : Nat → Option (List PartRec)) :
    ∀ fuel calls ftext contents effs,
      (∀ k, calls ≤ k → k < calls + fuel → hasToolCallResponse (script k) = true) →
      (chatLoop script fuel calls ftext contents effs).calls = calls + fuel ∧
      (chatLoop script fuel calls ftext contents effs).text = ftext := by
  intro fuel
  induction fuel with
  | zero =>
    intro calls ftext contents effs _
    simp [chatLoop]
  | succ n ih =>
    intro calls ftext contents effs h
    have h0 : hasToolCallResponse (script calls) = true := h calls le_rfl (by omega)
    unfold hasToolCallResponse at h0
    cases hresp : script calls with
    | none => rw [hresp] at h0; exact absurd h0 (by simp)
    | some parts =>
      rw [hresp] at h0
      have hfc : (partFunctionCalls (parts.filter validPart)).isEmpty = false := by
        simpa using h0
      rw [chatLoop_step_toolCalls script n calls ftext contents effs parts hresp hfc]
      have hih := ih (calls + 1) ftext
        (contents ++ [⟨"model", parts.filter validPart⟩,
          ⟨"user", toolResponseParts (partFunctionCalls (parts.filter validPart))⟩])
        (effs ++ dispatchAllEffects (partFunctionCalls (parts.filter validPart)))
        (fun k hk1 hk2 => h k (by omega) (by omega))
      exact ⟨hih.1.trans (by omega), hih.2⟩

/-- Starting with no accumulated text, a run of tool-call responses
followed by an empty-content response after the first iteration leaves
the accumulated text empty. -/
theorem chatLoop_none_fallback (script : Nat → Option (List PartRec)) :
    ∀ j fuel calls contents effs, j < fuel → 1 ≤ calls + j →
      (∀ k, calls ≤ k → k < calls + j → hasToolCallResponse (script k) = true) →
      script (calls + j) = none →
      (chatLoop script fuel calls "" contents effs).text = "" := by
  intro j
  induction j with
  | zero =>
    intro fuel calls contents effs hj hc h hnone
    match fuel, hj with
    | n + 1, _ =>
      rw [chatLoop]
      rw [show calls + 0 = calls from rfl] at hnone
      rw [hnone]
      have : ¬ (calls + 1 = 1) := by omega
      simp [this]
  | succ j ih =>
    intro fuel calls contents effs hj hc h hnone
    match fuel, hj with
    | n + 1, _ =>
      have h0 : hasToolCallResponse (script calls) = true := h calls le_rfl (by omega)
      unfold hasToolCallResponse at h0
      cases hresp : script calls with
      | none => rw [hresp] at h0; exact absurd h0 (by simp)
      | some parts =>
        rw [hresp] at h0
        have hfc : (partFunctionCalls (parts.filter validPart)).isEmpty = false := by
          simpa using h0
        rw [chatLoop_step_toolCalls script n calls "" contents effs parts hresp hfc]
        exact ih n (calls + 1) _ _ (by omega) (by omega)
          (fun k hk1 hk2 => h k (by omega) (by omega))
          (by rw [show calls + 1 + j = calls + (j + 1) from by omega]; exact hnone)

/-- Claim C2: every `executeChat` run issues at most `MAX_TURNS = 5`
remote calls (and, being a total function of the script, terminates
without raising); a script answering every permitted turn with a tool
call exhausts the bound after exactly 5 calls and returns the fixed
fallback `"..."` (no text was accumulated); a script that returns tool
calls and then empty content after the first iteration likewise returns
the accumulated text, which is necessarily empty, hence the fallback. -/
theorem executeChat_turn_bound (script : Nat → Option (List PartRec))
    (history : List ChatMessageRec) (promptParts : List PartRec) :
    (executeChat script history promptParts).calls ≤ 5 ∧
    ((∀ k, k < 5 → hasToolCallResponse (script k) = true) →
      (executeChat script history promptParts).calls = 5 ∧
      (executeChat script history promptParts).text = "...") ∧
    ((∃ j, 1 ≤ j ∧ j < 5 ∧
        (∀ k, k < j → hasToolCallResponse (script k) = true) ∧ script j = none) →
      (executeChat script history promptParts).text = "...") := by
  refine ⟨?_, ?_, ?_⟩
  · show (finishChat _).calls ≤ 5
    have hle := chatLoop_calls_le script 5 0 "" (initialContents history promptParts) []
    simpa [finishChat] using hle
  · intro h
    have hall := chatLoop_toolCalls_all script 5 0 "" (initialContents history promptParts) []
      (fun k hk1 hk2 => h k (by omega))
    constructor
    · show (finishChat _).calls = 5
      simpa [finishChat] using hall.1
    · show (finishChat _).text = "..."
      simp [finishChat, hall.2]
  · rintro ⟨j, h1, h5, hks, hnone⟩
    have hnil := chatLoop_none_fallback script j 5 0 (initialContents history promptParts) []
      h5 (by omega) (fun k hk1 hk2 => hks k (by omega)) (by simpa using hnone)
    show (finishChat _).text = "..."
    simp [finishChat, hnil]

/-- Witness for C2: a script answering every turn with a `setMood` tool
call issues exactly 5 calls and yields the fallback text. -/
theorem executeChat_turn_bound_witness :
    (executeChat (fun _ => some
        [{ functionCall := some ⟨"setMood", [("mood", Json.str "happy")], none⟩ }])
        [] []).calls ≤ 5 ∧
    ((executeChat (fun _ => some
        [{ functionCall := some ⟨"setMood", [("mood", Json.str "happy")], none⟩ }])
        [] []).calls = 5 ∧
      (executeChat (fun _ => some
        [{ functionCall := some ⟨"setMood", [("mood", Json.str "happy")], none⟩ }])
        [] []).text = "...") :=
  have h := executeChat_turn_bound (fun _ => some
    [{ functionCall := some ⟨"setMood", [("mood", Json.str "happy")], none⟩ }]) [] []
  ⟨h.1, h.2.1 (fun k _ => by decide)⟩

/-- Claim C3: within one loop iteration every tool call of the response
is dispatched exactly once and answered by exactly one
`functionResponse` part (same name and call id, in call order); a call
whose name is outside the fixed mapping invokes no callback and is
acknowledged with the generic `"Function executed."` result; and all the
responses are appended as one combined `user` turn, after the `model`
turn, before the next model invocation. -/
theorem toolCalls_dispatched_once :
    (∀ fcalls : List FunctionCallRec,
      (toolResponseParts fcalls).length = fcalls.length ∧
      ∀ i, i < fcalls.length →
        (toolResponseParts fcalls).getD i dummyPart =
          toolResponsePart (fcalls.getD i dummyCall)) ∧
    (∀ c : FunctionCallRec, c.name ≠ "updateMemory" → c.name ≠ "updateCharacterName" →
      c.name ≠ "setMood" →
      dispatchChatCall c = ([], Json.obj [("result", Json.str "Function executed.")])) ∧
    (∀ script fuel calls ftext contents effs parts,
      script calls = some parts →
      (partFunctionCalls (parts.filter validPart)).isEmpty = false →
      chatLoop script (fuel + 1) calls ftext contents effs =
        chatLoop script fuel (calls + 1) ftext
          (contents ++ [⟨"model", parts.filter validPart⟩,
            ⟨"user", toolResponseParts (partFunctionCalls (parts.filter validPart))⟩])
          (effs ++ dispatchAllEffects (partFunctionCalls (parts.filter validPart)))) := by
  refine ⟨?_, ?_, ?_⟩
  · intro fcalls
    refine ⟨List.length_map _ _, ?_⟩
    intro i hi
    unfold toolResponseParts
    rw [List.getD_eq_getElem _ _ (by rw [List.length_map]; exact hi),
      List.getD_eq_getElem _ _ hi, List.getElem_map]
  · intro c h1 h2 h3
    unfold dispatchChatCall
    rw [if_neg h1, if_neg h2, if_neg h3]
  · intro script fuel calls ftext contents effs parts hresp hfc
    exact chatLoop_step_toolCalls script fuel calls ftext contents effs parts hresp hfc

/-- Witness for C3 at a concrete two-call response (one known, one
unknown tool name). -/
theorem toolCalls_dispatched_once_witness :
    (toolResponseParts [⟨"setMood", [("mood", Json.str "sad")], some "id1"⟩,
      ⟨"mysteryTool", [], some "id2"⟩]).length = 2 ∧
    (toolResponseParts [⟨"setMood", [("mood", Json.str "sad")], some "id1"⟩,
      ⟨"mysteryTool", [], some "id2"⟩]).getD 1 dummyPart =
      toolResponsePart ⟨"mysteryTool", [], some "id2"⟩ ∧
    dispatchChatCall ⟨"mysteryTool", [], some "id2"⟩ =
      ([], Json.obj [("result", Json.str "Function executed.")]) ∧
    chatLoop (fun _ => some [{ functionCall := some ⟨"mysteryTool", [], some "id2"⟩ }])
        1 0 "" [] [] =
      chatLoop (fun _ => some [{ functionCall := some ⟨"mysteryTool", [], some "id2"⟩ }])
        0 1 ""
        ([] ++ [⟨"model", [({ functionCall := some ⟨"mysteryTool", [], some "id2"⟩ } :
            PartRec)].filter validPart⟩,
          ⟨"user", toolResponseParts (partFunctionCalls
            ([({ functionCall := some ⟨"mysteryTool", [], some "id2"⟩ } :
              PartRec)].filter validPart))⟩])
        ([] ++ dispatchAllEffects (partFunctionCalls
          ([({ functionCall := some ⟨"mysteryTool", [], some "id2"⟩ } :
            PartRec)].filter validPart))) :=
  ⟨(toolCalls_dispatched_once.1 [⟨"setMood", [("mood", Json.str "sad")], some "id1"⟩,
      ⟨"mysteryTool", [], some "id2"⟩]).1,
   (toolCalls_dispatched_once.1 [⟨"setMood", [("mood", Json.str "sad")], some "id1"⟩,
      ⟨"mysteryTool", [], some "id2"⟩]).2 1 (by decide),
   toolCalls_dispatched_once.2.1 ⟨"mysteryTool", [], some "id2"⟩
      (by decide) (by decide) (by decide),
   toolCalls_dispatched_once.2.2
      (fun _ => some [{ functionCall := some ⟨"mysteryTool", [], some "id2"⟩ }])
      0 0 "" [] [] [{ functionCall := some ⟨"mysteryTool", [], some "id2"⟩ }]
      rfl (by decide)⟩

/-! ## C4/C6: WAV byte layout and PCM round trip -/

theorem dvSetU8_apply_ne (m : Nat → Nat) (off v i : Nat) (h : i ≠ off) :
    dvSetU8 m off v i = m i := by
  unfold dvSetU8
  rw [if_neg h]

theorem dvSetI16_apply_lt (m : Nat → Nat) (off : Nat) (x : ℚ) (i : Nat) (h : i < off) :
    dvSetI16 m off x i = m i := by
  unfold dvSetI16 dvSetU16
  rw [dvSetU8_apply_ne _ _ _ _ (by omega), dvSetU8_apply_ne _ _ _ _ (by omega)]

theorem dvSetI16_apply_self (m : Nat → Nat) (off : Nat) (x : ℚ) :
    dvSetI16 m off x off = ((ratTrunc x % 65536).toNat) % 256 := by
  unfold dvSetI16 dvSetU16 dvSetU8
  rw [if_neg (by omega), if_pos rfl]

theorem dvSetI16_apply_succ (m : Nat → Nat) (off : Nat) (x : ℚ) :
    dvSetI16 m off x (off + 1) = ((ratTrunc x % 65536).toNat) / 256 % 256 := by
  unfold dvSetI16 dvSetU16 dvSetU8
  rw [if_pos rfl]

/-- The sample loop never writes below its starting offset. -/
theorem wavWriteSamples_apply_lt (ss : List ℚ) :
    ∀ (m : Nat → Nat) (off i : Nat), i < off → wavWriteSamples m off ss i = m i := by
  induction ss with
  | nil => intro m off i _; rfl
  | cons s rest ih =>
    intro m off i h
    rw [wavWriteSamples]
    rw [ih _ (off + 2) i (by omega)]
    rw [dvSetI16_apply_lt _ _ _ _ h]

/-- Reading the sample region back out of the store yields exactly the
encoded sample bytes, in order. -/
theorem wavWriteSamples_bytes (ss : List ℚ) :
    ∀ (m : Nat → Nat) (off : Nat),
      (List.range' off (2 * ss.length)).map (wavWriteSamples m off ss)
        = (ss.map (fun s => i16leBytes (specSampleInt s))).flatten := by
  induction ss with
  | nil => intro m off; simp
  | cons s rest ih =>
    intro m off
    have h2 : 2 * (s :: rest).length = (2 * rest.length + 1) + 1 := by
      simp [List.length_cons]
      ring
    rw [h2, List.range'_succ, List.range'_succ, List.map_cons, List.map_cons]
    have hunf : wavWriteSamples m off (s :: rest) =
        wavWriteSamples
          (dvSetI16 m off (if (max (-1) (min 1 s)) < 0 then (max (-1) (min 1 s)) * 32768
            else (max (-1) (min 1 s)) * 32767))
          (off + 2) rest := rfl
    rw [hunf]
    rw [wavWriteSamples_apply_lt rest _ _ _ (by omega),
      wavWriteSamples_apply_lt rest _ _ _ (by omega)]
    rw [dvSetI16_apply_self, dvSetI16_apply_succ]
    rw [show off + 1 + 1 = off + 2 from rfl]
    rw [ih _ (off + 2)]
    rw [List.map_cons, List.flatten_cons]
    rfl

@[simp]
theorem dvBytes_length (m : Nat → Nat) (len : Nat) : (dvBytes m len).length = len := by
  simp [dvBytes]

/-- Reading `a + b` bytes splits at offset `a`. -/
theorem dvBytes_append (m : Nat → Nat) (a b : Nat) :
    dvBytes m (a + b) = dvBytes m a ++ (List.range' a b).map m := by
  unfold dvBytes
  rw [List.range_eq_range', List.range_eq_range',
    show a + b = b + a from Nat.add_comm a b, ← List.range'_append 0 a b 1,
    List.map_append]
  simp

/-- Reading below the sample region sees only the header writes. -/
theorem dvBytes_wavWriteSamples_lower (ss : List ℚ) (m : Nat → Nat) (off len : Nat)
    (h : len ≤ off) :
    dvBytes (wavWriteSamples m off ss) len = dvBytes m len := by
  unfold dvBytes
  apply List.map_congr_left
  intro i hi
  exact wavWriteSamples_apply_lt ss m off i (by have := List.mem_range.mp hi; omega)

/-- The header store read over `[0, 44)` is the concatenated field
layout. -/
theorem wavHeaderStore_bytes (d r : Nat) :
    dvBytes (wavHeaderStore d r) 44 =
      asciiBytes "RIFF" ++ u32leBytes (36 + d) ++ asciiBytes "WAVE" ++ asciiBytes "fmt " ++
      u32leBytes 16 ++ u16leBytes 1 ++ u16leBytes 1 ++ u32leBytes r ++ u32leBytes (r * 2) ++
      u16leBytes 2 ++ u16leBytes 16 ++ asciiBytes "data" ++ u32leBytes d := by
  have hR : 'R'.toNat = 82 := rfl
  have hI : 'I'.toNat = 73 := rfl
  have hF : 'F'.toNat = 70 := rfl
  have hW : 'W'.toNat = 87 := rfl
  have hA : 'A'.toNat = 65 := rfl
  have hV : 'V'.toNat = 86 := rfl
  have hE : 'E'.toNat = 69 := rfl
  have hf : 'f'.toNat = 102 := rfl
  have hm : 'm'.toNat = 109 := rfl
  have ht : 't'.toNat = 116 := rfl
  have hs : ' '.toNat = 32 := rfl
  have hd : 'd'.toNat = 100 := rfl
  have ha : 'a'.toNat = 97 := rfl
  simp [dvBytes, wavHeaderStore, dvSetU32, dvSetU16, dvSetU8, dvWriteChars,
    asciiBytes, u32leBytes, u16leBytes, List.range_succ,
    hR, hI, hF, hW, hA, hV, hE, hf, hm, ht, hs, hd, ha]

/-- `audioBufferToWav` decomposed into its header bytes and data bytes. -/
theorem audioBufferToWav_decomp (buffer : AudioBufferRec) :
    audioBufferToWav buffer =
      dvBytes (wavHeaderStore (2 * buffer.samples.length) buffer.sampleRate) 44 ++
      (buffer.samples.map (fun s => i16leBytes (specSampleInt s))).flatten := by
  obtain ⟨ss, r⟩ := buffer
  show dvBytes (wavWriteSamples (wavHeaderStore (ss.length * 1 * 2) r) 44 ss)
    (44 + ss.length * 1 * 2) = _
  rw [show ss.length * 1 * 2 = 2 * ss.length from by ring]
  rw [dvBytes_append _ 44 (2 * ss.length)]
  rw [dvBytes_wavWriteSamples_lower ss _ 44 44 le_rfl]
  rw [wavWriteSamples_bytes ss _ 44]

/-- The emitted bytes equal the spec's canonical layout. -/
theorem audioBufferToWav_eq_spec (buffer : AudioBufferRec) :
    audioBufferToWav buffer = wavSpecBytes buffer.samples buffer.sampleRate := by
  rw [audioBufferToWav_decomp, wavHeaderStore_bytes]
  unfold wavSpecBytes
  simp [List.append_assoc]

/-- Claim C6: `audioBufferToWav` emits exactly `44 + 2n` bytes laid out
as the spec's canonical mono 16-bit PCM WAV: `RIFF`/`36+2n`/`WAVE`,
`fmt ` chunk of size 16 with PCM format 1, one channel, rate `r`, byte
rate `2r`, block align 2, 16 bits per sample, then `data`/`2n` and each
sample clamped to `[-1,1]`, scaled by 32767 when non-negative and 32768
when negative, written little-endian. -/
theorem audioBufferToWav_layout (buffer : AudioBufferRec) :
    audioBufferToWav buffer = wavSpecBytes buffer.samples buffer.sampleRate ∧
    (audioBufferToWav buffer).length = 44 + 2 * buffer.samples.length := by
  refine ⟨audioBufferToWav_eq_spec buffer, ?_⟩
  show (dvBytes _ _).length = _
  rw [dvBytes_length]
  ring

/-- Decoded 16-bit samples lie in the signed 16-bit range. -/
theorem bytesToInt16s_bounds : ∀ (l : List Nat), ∀ v ∈ bytesToInt16s l,
    -32768 ≤ v ∧ v ≤ 32767
  | [] => by simp [bytesToInt16s]
  | [_] => by simp [bytesToInt16s]
  | lo :: hi :: rest => by
    intro v hv
    rw [bytesToInt16s] at hv
    rcases List.mem_cons.mp hv with rfl | h
    · have h4 : lo % 256 + 256 * (hi % 256) < 65536 := by omega
      simp only []
      split <;> omega
    · exact bytesToInt16s_bounds rest v h

/-- Re-encoding one in-range 16-bit sample value: negatives survive
exactly, positives lose one unit to the asymmetric scale factors. -/
theorem specSampleInt_of_int16 (v : Int) (h1 : -32768 ≤ v) (h2 : v ≤ 32767) :
    specSampleInt ((v : ℚ) / 32768) = if v < 0 then v else if v = 0 then 0 else v - 1 := by
  unfold specSampleInt
  have hge : (-32768 : ℚ) ≤ (v : ℚ) := by exact_mod_cast h1
  have hle : (v : ℚ) ≤ 32767 := by exact_mod_cast h2
  have hmin : min 1 ((v : ℚ) / 32768) = (v : ℚ) / 32768 := by
    rw [min_eq_right]
    rw [div_le_one (by norm_num : (0:ℚ) < 32768)]
    linarith
  have hmax : max (-1) ((v : ℚ) / 32768) = (v : ℚ) / 32768 := by
    rw [max_eq_right]
    rw [le_div_iff₀ (by norm_num : (0:ℚ) < 32768)]
    linarith
  rw [hmin, hmax]
  show ratTrunc (if ((v : ℚ) / 32768) < 0 then ((v : ℚ) / 32768) * 32768
    else ((v : ℚ) / 32768) * 32767) = _
  by_cases hv : v < 0
  · have hx : ((v : ℚ) / 32768) < 0 := by
      apply div_neg_of_neg_of_pos
      · exact_mod_cast hv
      · norm_num
    rw [if_pos hx, if_pos hv]
    rw [div_mul_cancel₀ _ (by norm_num : (32768:ℚ) ≠ 0)]
    unfold ratTrunc
    rw [if_pos (by exact_mod_cast hv : ((v : ℚ) < 0))]
    rw [show -((v : ℚ)) = (((-v : ℤ)) : ℚ) from by push_cast; ring, Int.floor_intCast]
    ring
  · have h0le : (0:ℚ) ≤ (v : ℚ) := by exact_mod_cast (by omega : (0:Int) ≤ v)
    have hx : ¬ (((v : ℚ) / 32768) < 0) := by
      push_neg
      exact div_nonneg h0le (by norm_num)
    rw [if_neg hx, if_neg hv]
    unfold ratTrunc
    have hscaled : ¬ (((v : ℚ) / 32768) * 32767 < 0) := by
      push_neg
      exact mul_nonneg (div_nonneg h0le (by norm_num)) (by norm_num)
    rw [if_neg hscaled]
    by_cases h0 : v = 0
    · subst h0
      norm_num
    · rw [if_neg h0]
      have hq1 : (1:ℚ) ≤ (v : ℚ) := by exact_mod_cast (by omega : (1:Int) ≤ v)
      rw [div_mul_eq_mul_div, Int.floor_eq_iff]
      constructor
      · rw [le_div_iff₀ (by norm_num : (0:ℚ) < 32768)]
        push_cast
        linarith
      · rw [div_lt_iff₀ (by norm_num : (0:ℚ) < 32768)]
        push_cast
        linarith

/-- Decoding the two little-endian bytes of an in-range value recovers
it. -/
theorem bytesToInt16s_pair (t : Int) (rest : List Nat)
    (h1 : -32768 ≤ t) (h2 : t ≤ 32767) :
    bytesToInt16s (i16leBytes t ++ rest) = t :: bytesToInt16s rest := by
  show bytesToInt16s (((t % 65536).toNat % 256) :: ((t % 65536).toNat / 256 % 256) :: rest)
    = t :: bytesToInt16s rest
  rw [bytesToInt16s]
  congr 1
  have h4 : ((t % 65536).toNat % 256) % 256 + 256 * (((t % 65536).toNat / 256 % 256) % 256)
      = (t % 65536).toNat := by omega
  simp only [h4]
  split <;> omega

/-- Decoding the whole encoded data chunk of a sample list. -/
theorem data_roundtrip (vs : List Int) (hb : ∀ v ∈ vs, -32768 ≤ v ∧ v ≤ 32767) :
    bytesToInt16s ((vs.map (fun (v : Int) => i16leBytes (specSampleInt ((v : ℚ) / 32768)))).flatten)
      = vs.map (fun v => if v < 0 then v else if v = 0 then 0 else v - 1) := by
  induction vs with
  | nil => rfl
  | cons v rest ih =>
    simp only [List.map_cons, List.flatten_cons]
    have hv := hb v (List.mem_cons_self v rest)
    rw [specSampleInt_of_int16 v hv.1 hv.2]
    have hw : -32768 ≤ (if v < 0 then v else if v = 0 then 0 else v - 1) ∧
        (if v < 0 then v else if v = 0 then 0 else v - 1) ≤ 32767 := by
      constructor
      · split
        · omega
        · split <;> omega
      · split
        · omega
        · split <;> omega
    rw [bytesToInt16s_pair _ _ hw.1 hw.2]
    rw [ih (fun u hu => hb u (List.mem_cons_of_mem v hu))]

/-- Counterexample to claim C4 as stated: the empty byte buffer has even
length, yet decoding it raises (`ctx.createBuffer` throws
`NotSupportedError` on a zero frame count), so there is no decoded
buffer to re-encode and the round-trip law fails at this input. -/
theorem pcm_wav_roundTrip_counterexample :
    ([] : List Nat).length % 2 = 0 ∧
    pcmToAudioBuffer [] 24000 =
      Except.error "createBuffer: the number of frames must be at least 1" := by
  constructor
  · decide
  · rfl

/-- Claim C4, amended: decoding a nonempty even-length PCM byte buffer
and re-encoding it as WAV reproduces, in the data chunk, every original
16-bit sample value to within one unit (the empty buffer instead raises
in `createBuffer`). -/
theorem pcm_wav_roundTrip (bytes : List Nat) (rate : Nat)
    (heven : bytes.length % 2 = 0) (hne : bytes ≠ []) :
    ∃ buf, pcmToAudioBuffer bytes rate = Except.ok buf ∧
      List.Forall₂ (fun w v => (w - v).natAbs ≤ 1)
        (bytesToInt16s ((audioBufferToWav buf).drop 44))
        (bytesToInt16s bytes) := by
  refine ⟨⟨(bytesToInt16s bytes).map (fun (v : Int) => (v : ℚ) / 32768), rate⟩, ?_, ?_⟩
  · have hfc : (bytesToInt16s bytes).length ≠ 0 := by
      cases bytes with
      | nil => exact absurd rfl hne
      | cons a t =>
        cases t with
        | nil => simp at heven
        | cons b r => simp [bytesToInt16s]
    unfold pcmToAudioBuffer
    rw [if_neg (by omega), if_neg hfc]
  · rw [audioBufferToWav_decomp]
    have hdrop : ∀ (H D : List Nat), H.length = 44 → (H ++ D).drop 44 = D := by
      intro H D hh
      rw [← hh, List.drop_left]
    rw [hdrop _ _ (dvBytes_length _ _)]
    rw [List.map_map]
    have hcomp : ((fun s => i16leBytes (specSampleInt s)) ∘ fun (v : Int) => (v : ℚ) / 32768)
        = fun (v : Int) => i16leBytes (specSampleInt ((v : ℚ) / 32768)) := by
      funext v
      rfl
    rw [hcomp]
    rw [data_roundtrip (bytesToInt16s bytes) (bytesToInt16s_bounds bytes)]
    rw [List.forall₂_map_left_iff, List.forall₂_same]
    intro x hx
    rcases lt_trichotomy x 0 with h | h | h
    · rw [if_pos h]
      omega
    · rw [if_neg (by omega), if_pos h]
      omega
    · rw [if_neg (by omega), if_neg (by omega)]
      omega

/-- Witness for C4 at a concrete four-byte buffer (samples 4660 and -1). -/
theorem pcm_wav_roundTrip_witness :
    ∃ buf, pcmToAudioBuffer [52, 18, 255, 255] 24000 = Except.ok buf ∧
      List.Forall₂ (fun w v => (w - v).natAbs ≤ 1)
        (bytesToInt16s ((audioBufferToWav buf).drop 44))
        (bytesToInt16s [52, 18, 255, 255]) :=
  pcm_wav_roundTrip [52, 18, 255, 255] 24000 (by decide) (by decide)

end TeddyTalk
